import Mathlib

/-
Verification of the real-time voice pipeline of the LiveVoiceScreen
component (browser client).  The embedding below translates the
audio-processing and session-orchestration logic of the component into
Lean definitions:

  * PCM codec: the inline float -> 16-bit PCM conversion of
    `onaudioprocess` and the inverse conversion of `playAudio`,
    together with the byte-level view taken through the typed-array
    buffers.  JavaScript numbers are modelled as exact rationals;
    the ToInt16 conversion truncates toward zero and reduces mod 2^16.
  * Base64 transport decode: `window.atob` (forgiving-base64: strip
    ASCII whitespace, strip up to two trailing padding characters when
    the length is a multiple of four, reject a remainder of one and any
    character outside the alphabet).
  * Signal meter: the RMS computation of `onaudioprocess`.  JavaScript
    division by zero produces NaN, modelled by `Option.none`.
  * Playback scheduler: the cursor/active-set logic of `playAudio`
    (scheduling portion) and `stopAudioPlayback`.  Times are rationals
    (seconds); a scheduled unit stores its sample count, its duration
    being samples / 24000 as for an AudioBuffer created at 24 kHz.
  * Message handler: the `onmessage` callback, sequencing the audio,
    `interrupted` and `turnComplete` branches; a decode exception
    aborts the handler before any later branch runs (no try/catch in
    the source), modelled with the `Except` monad.
  * Teardown: the `disconnect` function, with each platform call given
    its synchronous failure behaviour (none of the calls it makes can
    throw synchronously; `AudioContext.close` on an already closed
    context yields an asynchronously rejected promise, which the code
    does not await) and an event log recording which external
    operations were invoked.
-/

/-! ## PCM codec -/

/-- Errors that the decode path of `playAudio` can raise:
`invalidB64` for `window.atob` rejecting the input, `oddLength` for the
`Int16Array` view of a buffer whose byte length is not a multiple of 2. -/
inductive DecodeErr where
  | invalidB64
  | oddLength
deriving DecidableEq

/-- Truncation toward zero, the integer conversion JavaScript applies
when a number is stored into an `Int16Array` element (ToInt16). -/
def jsTrunc (q : ℚ) : ℤ := if 0 ≤ q then ⌊q⌋ else ⌈q⌉

/-- Clamping of a capture sample, `Math.max(-1, Math.min(1, s))`. -/
def clampSample (x : ℚ) : ℚ := max (-1) (min 1 x)

/-- One sample of the encode loop of `onaudioprocess`:
`pcmData[i] = s < 0 ? s * 0x8000 : s * 0x7FFF` after clamping. -/
def encodeSample (x : ℚ) : ℤ :=
  let s := clampSample x
  if s < 0 then jsTrunc (s * 32768) else jsTrunc (s * 32767)

/-- Little-endian byte pair of a 16-bit value, as exposed by viewing the
`Int16Array` buffer through a `Uint8Array`.  The value is first reduced
into the unsigned 16-bit range (the storage format of the element). -/
def int16ToBytes (v : ℤ) : List ℕ :=
  let u := (v % 65536).toNat
  [u % 256, u / 256]

/-- `floatToPCM16`: the full encode of a frame in `onaudioprocess` -
per-sample conversion into an `Int16Array`, then the raw little-endian
byte sequence of its buffer. -/
def floatToPCM16 (xs : List ℚ) : List ℕ :=
  (xs.map encodeSample).flatMap int16ToBytes

/-- Reinterpretation of an unsigned 16-bit storage value as a signed
16-bit integer, as an `Int16Array` element read does. -/
def toSigned16 (u : ℕ) : ℤ :=
  if u % 65536 < 32768 then ((u % 65536 : ℕ) : ℤ) else ((u % 65536 : ℕ) : ℤ) - 65536

/-- Little-endian pairing of a byte sequence into signed 16-bit values,
the `new Int16Array(bytes.buffer)` view in `playAudio`. -/
def bytesToInts : List ℕ → List ℤ
  | lo :: hi :: rest => toSigned16 (lo + 256 * hi) :: bytesToInts rest
  | _ => []

/-- One sample of the decode loop of `playAudio`:
`float32Data[i] = int < 0 ? int / 0x8000 : int / 0x7FFF`. -/
def pcm16SampleToFloat (v : ℤ) : ℚ :=
  if v < 0 then (v : ℚ) / 32768 else (v : ℚ) / 32767

/-- `pcm16ToFloat`: the byte-to-float decode of `playAudio`.  Creating
the `Int16Array` view throws a RangeError when the byte length is not a
multiple of 2; otherwise each 16-bit value is scaled into a float. -/
def pcm16ToFloat (bytes : List ℕ) : Except DecodeErr (List ℚ) :=
  if bytes.length % 2 = 0 then Except.ok ((bytesToInts bytes).map pcm16SampleToFloat)
  else Except.error DecodeErr.oddLength

/-- Successful result of `pcm16ToFloat`, empty on failure; used to state
properties of the samples actually handed to the playback buffer. -/
def pcm16ToFloatRun (bytes : List ℕ) : List ℚ :=
  match pcm16ToFloat bytes with
  | Except.ok ys => ys
  | Except.error _ => []

/-- Elementwise closeness up to one 16-bit quantization step. -/
def quantClose (y x : ℚ) : Prop := |y - x| ≤ 1 / 32767

/-! ## Base64 transport decode (`window.atob`) -/

/-- ASCII whitespace stripped by forgiving-base64 decode. -/
def isB64Ws (c : Char) : Bool :=
  c == ' ' || c == '\t' || c == '\n' || c == '\x0c' || c == '\r'

/-- Value of a base64 alphabet character, none outside the alphabet. -/
def b64Val (c : Char) : Option ℕ :=
  if 'A' ≤ c ∧ c ≤ 'Z' then some (c.toNat - 'A'.toNat)
  else if 'a' ≤ c ∧ c ≤ 'z' then some (c.toNat - 'a'.toNat + 26)
  else if '0' ≤ c ∧ c ≤ '9' then some (c.toNat - '0'.toNat + 52)
  else if c = '+' then some 62
  else if c = '/' then some 63
  else none

/-- Removal of up to two trailing padding characters. -/
def stripPad (l : List Char) : List Char :=
  match l.reverse with
  | '=' :: '=' :: r => r.reverse
  | '=' :: r => r.reverse
  | _ => l

/-- Bit reassembly of base64 sextets into bytes: groups of four sextets
give three bytes, a final pair gives one byte, a final triple two. -/
def decodeGroups : List ℕ → List ℕ
  | a :: b :: c :: d :: rest =>
      (a * 4 + b / 16) :: ((b % 16) * 16 + c / 4) :: ((c % 4) * 64 + d) :: decodeGroups rest
  | [a, b] => [a * 4 + b / 16]
  | [a, b, c] => [a * 4 + b / 16, (b % 16) * 16 + c / 4]
  | _ => []

/-- `window.atob` (forgiving-base64 decode).  Throws (here: returns
`Except.error`) on a remainder-one length or a character outside the
alphabet. -/
def atob (input : List Char) : Except DecodeErr (List ℕ) :=
  let d1 := input.filter (fun c => !(isB64Ws c))
  let d2 := if d1.length % 4 = 0 then stripPad d1 else d1
  if d2.length % 4 = 1 then Except.error DecodeErr.invalidB64
  else
    match d2.mapM b64Val with
    | some vals => Except.ok (decodeGroups vals)
    | none => Except.error DecodeErr.invalidB64

/-! ## Signal meter (`onaudioprocess` RMS computation) -/

/-- JavaScript division producing a floating-point value: a zero
denominator yields NaN or an infinity, neither of which is a rational
number; both are modelled as `none`. -/
def jsDiv (a b : ℚ) : Option ℚ := if b = 0 then none else some (a / b)

/-- Sum of squared samples accumulated by the `onaudioprocess` loop. -/
def sumSquares (xs : List ℚ) : ℚ := (xs.map (fun x => x * x)).sum

/-- `sum / inputData.length`, the radicand of the RMS computation. -/
def meanSquare (xs : List ℚ) : Option ℚ := jsDiv (sumSquares xs) ((xs.length : ℚ))

/-- `r` is the value `Math.sqrt(sum / length)` computes on frame `xs`:
the mean square is defined (not NaN) and `r` is its nonnegative square
root. -/
def isRmsOf (xs : List ℚ) (r : ℚ) : Prop := 0 ≤ r ∧ meanSquare xs = some (r * r)

/-! ## Playback scheduler -/

/-- A scheduled playback unit (`AudioBufferSourceNode`): its assigned
start time, the sample count of its 24 kHz buffer, and whether playback
has already finished naturally (the race window of `stopAudioPlayback`). -/
structure Src where
  start : ℚ
  samples : ℕ
  finished : Bool
deriving DecidableEq

/-- Duration of a unit: an `AudioBuffer` of `samples` frames created at
24000 Hz has duration `samples / 24000` seconds. -/
def srcDur (u : Src) : ℚ := (u.samples : ℚ) / 24000

/-- Scheduler state: the playback cursor `nextStartTimeRef` and the
active set `activeSourcesRef`. -/
structure Sched where
  nextStartTime : ℚ
  active : List Src
deriving DecidableEq

/-- The scheduling portion of `playAudio` (its last lines): read the
device clock, pull the cursor up to `currentTime + 0.05` only when it
has fallen strictly behind the clock, start the unit at the cursor,
advance the cursor by the unit duration, and register the unit in the
active set.  Returns the new state and the start time used. -/
def enqueue (now : ℚ) (n : ℕ) (s : Sched) : Sched × ℚ :=
  let start := if s.nextStartTime < now then now + 1 / 20 else s.nextStartTime
  ({ nextStartTime := start + (n : ℚ) / 24000,
     active := s.active ++ [{ start := start, samples := n, finished := false }] }, start)

/-- `AudioBufferSourceNode.stop()` on a tracked unit: may fail if the
unit already finished naturally (the comment in the source anticipates
exactly this). -/
def stopSource (u : Src) : Except Unit Unit :=
  if u.finished then Except.error () else Except.ok ()

/-- The `try { source.stop() } catch (e) { }` of `stopAudioPlayback`:
any failure of the underlying stop is swallowed. -/
def tryStop (u : Src) : Except Unit Unit :=
  match stopSource u with
  | Except.ok _ => Except.ok ()
  | Except.error _ => Except.ok ()

/-- `stopAudioPlayback`: stop every active unit (each wrapped in the
catch above), clear the active set, and - when the audio context is
present - reset the cursor to the current device clock time. -/
def stopAudioPlayback (now : ℚ) (ctxPresent : Bool) (s : Sched) : Sched :=
  let _ := s.active.map tryStop
  { nextStartTime := if ctxPresent then now else s.nextStartTime, active := [] }

/-- Pairwise non-overlap of the half-open playback intervals
`[start, start + duration)` of the active units. -/
def unitsDisjoint (l : List Src) : Prop :=
  l.Pairwise (fun u v => u.start + srcDur u ≤ v.start ∨ v.start + srcDur v ≤ u.start)

/-- Decode chain of `playAudio`: `window.atob`, then the `Int16Array`
view and per-sample scaling.  Either step may throw; the source wraps
neither in a try/catch. -/
def playAudioDecode (b64 : List Char) : Except DecodeErr (List ℚ) :=
  match atob b64 with
  | Except.ok bytes => pcm16ToFloat bytes
  | Except.error e => Except.error e

/-- `playAudio` in the connected configuration (audio context present):
decode the frame, then schedule it at the cursor. -/
def playAudio (now : ℚ) (b64 : List Char) (s : Sched) : Except DecodeErr (Sched × ℚ) :=
  match playAudioDecode b64 with
  | Except.ok samples => Except.ok (enqueue now samples.length s)
  | Except.error e => Except.error e

/-! ## Message handler (`onmessage`) -/

/-- Shape of an inbound live-session message: optional base64 audio
payload, optional `interrupted` flag, optional `turnComplete` flag. -/
structure ServerMessage where
  audioData : Option (List Char)
  interrupted : Bool
  turnComplete : Bool
deriving DecidableEq

/-- Observable state touched by `onmessage`: the scheduler and the
`isSpeaking` flag.  (`status` is written only by the open/close/error
callbacks, never by `onmessage`.) -/
structure VoiceState where
  sched : Sched
  isSpeaking : Bool
deriving DecidableEq

/-- The `onmessage` callback: first the audio branch (enqueue and set
`isSpeaking` to true), then the `interrupted` branch (stop playback and
clear `isSpeaking`), then the `turnComplete` branch (clear
`isSpeaking`).  A decode exception in the audio branch aborts the
handler before the later branches run - the source has no try/catch -
so the error propagates out of the callback. -/
def onmessage (now : ℚ) (m : ServerMessage) (st : VoiceState) : Except DecodeErr VoiceState :=
  let step1 : Except DecodeErr VoiceState :=
    match m.audioData with
    | some b64 =>
        match playAudio now b64 st.sched with
        | Except.ok p => Except.ok { st with sched := p.1, isSpeaking := true }
        | Except.error e => Except.error e
    | none => Except.ok st
  match step1 with
  | Except.error e => Except.error e
  | Except.ok st1 =>
      let st2 := if m.interrupted then
          { st1 with sched := stopAudioPlayback now true st1.sched, isSpeaking := false }
        else st1
      let st3 := if m.turnComplete then { st2 with isSpeaking := false } else st2
      Except.ok st3

/-- Net effect of a message delivery on the component state: on an
uncaught exception the handler aborts and no state change has happened
(every throw site in the decode chain precedes the first mutation). -/
def runMessage (now : ℚ) (m : ServerMessage) (st : VoiceState) : VoiceState :=
  match onmessage now m st with
  | Except.ok r => r
  | Except.error _ => st

/-! ## Teardown (`disconnect`) -/

/-- The refs `disconnect` consults: the remote session handle, the
script processor node, the media stream source node, the microphone
stream, and the audio context (`some closed?`, `none` when never
created). -/
structure CompState where
  session : Bool
  processor : Bool
  source : Bool
  stream : Bool
  ctx : Option Bool
deriving DecidableEq

/-- External operations a component can invoke, for the event log.
`sessClose` and `sessSend` are the operations of the remote session
handle; `ctxClose` records whether the context was already closed (in
which case the returned promise rejects asynchronously). -/
inductive JsCall where
  | sessClose
  | sessSend
  | procDisc
  | srcDisc
  | trackStop
  | ctxClose (alreadyClosed : Bool)
  | onEnd
deriving DecidableEq

/-- `AudioNode.disconnect()` with no arguments: never throws, also on a
node with no remaining connections. -/
def nodeDisconnectOp : Except Unit Unit := Except.ok ()

/-- `MediaStreamTrack.stop()`: idempotent, never throws. -/
def trackStopOp : Except Unit Unit := Except.ok ()

/-- `AudioContext.close()`: returns a promise and never throws
synchronously; on an already closed context the promise rejects.  The
result records whether the promise rejects; `disconnect` does not await
it. -/
def ctxCloseOp (alreadyClosed : Bool) : Except Unit Bool := Except.ok alreadyClosed

/-- `disconnect`: null the session ref (no close or send is issued to
the handle), disconnect the processor and source nodes when both are
present, stop the microphone tracks, close the audio context when
present, and finally invoke the `onEnd` host callback.  Each platform
call is threaded through the error channel with its synchronous failure
behaviour, and the invoked operations are logged. -/
def disconnectE (st : CompState) : Except Unit (CompState × List JsCall) :=
  let st1 := if st.session then { st with session := false } else st
  let r1 : Except Unit (List JsCall) :=
    if st1.processor && st1.source then
      match nodeDisconnectOp with
      | Except.error e => Except.error e
      | Except.ok _ =>
          match nodeDisconnectOp with
          | Except.error e => Except.error e
          | Except.ok _ => Except.ok [JsCall.procDisc, JsCall.srcDisc]
    else Except.ok []
  match r1 with
  | Except.error e => Except.error e
  | Except.ok calls1 =>
      let r2 : Except Unit (List JsCall) :=
        if st1.stream then
          match trackStopOp with
          | Except.error e => Except.error e
          | Except.ok _ => Except.ok [JsCall.trackStop]
        else Except.ok []
      match r2 with
      | Except.error e => Except.error e
      | Except.ok calls2 =>
          match st1.ctx with
          | some c =>
              match ctxCloseOp c with
              | Except.error e => Except.error e
              | Except.ok _ =>
                  Except.ok ({ st1 with ctx := some true },
                    calls1 ++ calls2 ++ [JsCall.ctxClose c, JsCall.onEnd])
          | none => Except.ok (st1, calls1 ++ calls2 ++ [JsCall.onEnd])

/-- Result state and call log of a `disconnect` invocation. -/
def disconnectRun (st : CompState) : CompState × List JsCall :=
  match disconnectE st with
  | Except.ok p => p
  | Except.error _ => (st, [])

/-! ## Helper lemmas: PCM codec -/

theorem clampSample_eq_self {x : ℚ} (h1 : -1 ≤ x) (h2 : x ≤ 1) : clampSample x = x := by
  unfold clampSample
  rw [min_eq_right h2, max_eq_right h1]

theorem encodeSample_bounds (x : ℚ) : -32768 ≤ encodeSample x ∧ encodeSample x ≤ 32767 := by
  unfold encodeSample
  set s := clampSample x with hs
  have hs1 : -1 ≤ s := le_max_left _ _
  have hs2 : s ≤ 1 := max_le (by norm_num) (min_le_left _ _)
  by_cases hneg : s < 0
  · rw [if_pos hneg]
    have hq : ¬ (0 ≤ s * 32768) := by nlinarith
    unfold jsTrunc
    rw [if_neg hq]
    constructor
    · have h1 : ((-32768 : ℤ) : ℚ) ≤ s * 32768 := by push_cast; nlinarith
      have := Int.ceil_le_ceil h1
      rwa [Int.ceil_intCast] at this
    · have h1 : ⌈s * 32768⌉ ≤ (0 : ℤ) := Int.ceil_le.mpr (by push_cast; nlinarith)
      omega
  · rw [if_neg hneg]
    push_neg at hneg
    have hq : 0 ≤ s * 32767 := by nlinarith
    unfold jsTrunc
    rw [if_pos hq]
    constructor
    · have h1 : (0 : ℤ) ≤ ⌊s * 32767⌋ := Int.floor_nonneg.mpr hq
      omega
    · have h1 : s * 32767 ≤ ((32767 : ℤ) : ℚ) := by push_cast; nlinarith
      have := Int.floor_le_floor h1
      rwa [Int.floor_intCast] at this

theorem sample_roundtrip {x : ℚ} (h1 : -1 ≤ x) (h2 : x ≤ 1) :
    quantClose (pcm16SampleToFloat (encodeSample x)) x := by
  unfold quantClose
  unfold encodeSample
  rw [clampSample_eq_self h1 h2]
  by_cases hx : x < 0
  · rw [if_pos hx]
    have hq : ¬ (0 ≤ x * 32768) := by nlinarith
    unfold jsTrunc
    rw [if_neg hq]
    have hle : x * 32768 ≤ (⌈x * 32768⌉ : ℚ) := Int.le_ceil _
    have hlt : ((⌈x * 32768⌉ : ℤ) : ℚ) < x * 32768 + 1 := Int.ceil_lt_add_one _
    by_cases hvneg : ⌈x * 32768⌉ < 0
    · unfold pcm16SampleToFloat
      rw [if_pos hvneg]
      rw [abs_le]
      constructor
      · have hx' : x ≤ (⌈x * 32768⌉ : ℚ) / 32768 := by
          rw [le_div_iff₀ (by norm_num : (0 : ℚ) < 32768)]
          linarith
        linarith
      · have hx' : (⌈x * 32768⌉ : ℚ) / 32768 < x + 1 / 32768 := by
          rw [div_lt_iff₀ (by norm_num : (0 : ℚ) < 32768)]
          nlinarith
        have h32 : (1 : ℚ) / 32768 ≤ 1 / 32767 := by norm_num
        linarith
    · have hv0 : ⌈x * 32768⌉ = 0 :=
        le_antisymm (Int.ceil_le.mpr (by push_cast; nlinarith)) (not_lt.mp hvneg)
      rw [hv0] at hlt
      push_cast at hlt
      unfold pcm16SampleToFloat
      rw [hv0]
      rw [if_neg (by omega : ¬ ((0 : ℤ) < 0))]
      simp only [Int.cast_zero, zero_div, zero_sub, abs_neg]
      rw [abs_le]
      have h32 : (1 : ℚ) / 32768 ≤ 1 / 32767 := by norm_num
      constructor <;> linarith
  · rw [if_neg hx]
    push_neg at hx
    have hq : 0 ≤ x * 32767 := by nlinarith
    unfold jsTrunc
    rw [if_pos hq]
    have hfl : ((⌊x * 32767⌋ : ℤ) : ℚ) ≤ x * 32767 := Int.floor_le _
    have hfl2 : x * 32767 - 1 < ((⌊x * 32767⌋ : ℤ) : ℚ) := Int.sub_one_lt_floor _
    have hvn : ¬ (⌊x * 32767⌋ < 0) := not_lt.mpr (Int.floor_nonneg.mpr hq)
    unfold pcm16SampleToFloat
    rw [if_neg hvn]
    rw [abs_le]
    constructor
    · have hx' : x - 1 / 32767 < (⌊x * 32767⌋ : ℚ) / 32767 := by
        rw [lt_div_iff₀ (by norm_num : (0 : ℚ) < 32767)]
        nlinarith
      linarith
    · have hx' : (⌊x * 32767⌋ : ℚ) / 32767 ≤ x := by
        rw [div_le_iff₀ (by norm_num : (0 : ℚ) < 32767)]
        linarith
      linarith

theorem bytesToInts_int16ToBytes {v : ℤ} (h1 : -32768 ≤ v) (h2 : v ≤ 32767)
    (rest : List ℕ) : bytesToInts (int16ToBytes v ++ rest) = v :: bytesToInts rest := by
  unfold int16ToBytes
  simp only [List.cons_append, List.nil_append, bytesToInts, List.cons.injEq]
  refine ⟨?_, rfl⟩
  have hu : (v % 65536).toNat % 256 + 256 * ((v % 65536).toNat / 256) = (v % 65536).toNat :=
    Nat.mod_add_div _ _
  rw [hu]
  have hnn : 0 ≤ v % 65536 := Int.emod_nonneg v (by norm_num)
  have hlt : v % 65536 < 65536 := Int.emod_lt_of_pos v (by norm_num)
  have htn : ((v % 65536).toNat : ℤ) = v % 65536 := Int.toNat_of_nonneg hnn
  unfold toSigned16
  split <;> omega

theorem toSigned16_bounds (u : ℕ) : -32768 ≤ toSigned16 u ∧ toSigned16 u ≤ 32767 := by
  unfold toSigned16
  split <;> omega

theorem bytesToInts_mem_bounds : ∀ (l : List ℕ), ∀ v ∈ bytesToInts l, -32768 ≤ v ∧ v ≤ 32767
  | [] => by simp [bytesToInts]
  | [_] => by simp [bytesToInts]
  | _ :: _ :: rest => by
      intro v hv
      simp only [bytesToInts, List.mem_cons] at hv
      rcases hv with h | h
      · subst h
        exact toSigned16_bounds _
      · exact bytesToInts_mem_bounds rest v h

theorem floatToPCM16_decode (xs : List ℚ) :
    bytesToInts (floatToPCM16 xs) = xs.map encodeSample := by
  induction xs with
  | nil => rfl
  | cons x xs ih =>
      have hb := encodeSample_bounds x
      simp only [floatToPCM16, List.map_cons, List.flatMap_cons]
      rw [bytesToInts_int16ToBytes hb.1 hb.2]
      simp only [floatToPCM16] at ih
      rw [ih]

theorem floatToPCM16_length (xs : List ℚ) : (floatToPCM16 xs).length = 2 * xs.length := by
  induction xs with
  | nil => rfl
  | cons x xs ih =>
      simp only [floatToPCM16, List.map_cons, List.flatMap_cons, List.length_append,
        List.length_cons] at *
      simp [int16ToBytes, ih]
      ring

theorem forallTwoMapSelf {α β : Type} {P : α → β → Prop} (f : β → α) :
    ∀ xs : List β, (∀ x ∈ xs, P (f x) x) → List.Forall₂ P (xs.map f) xs
  | [], _ => List.Forall₂.nil
  | x :: xs, h =>
      List.Forall₂.cons (h x (by simp))
        (forallTwoMapSelf f xs (fun y hy => h y (by simp [hy])))

/-! ## Claim theorems: codec and meter -/

/-- Claim C5 (confirmed): for every sample array with all values in
[-1, 1], decoding the encoding (the PCM decode of `playAudio` applied to
the byte output of the `onaudioprocess` encode) succeeds and yields an
array differing from the input elementwise by at most one 16-bit
quantization step, 1/32767. -/
theorem pcm_roundtrip_quantization (xs : List ℚ) (h : ∀ x ∈ xs, -1 ≤ x ∧ x ≤ 1) :
    (pcm16ToFloat (floatToPCM16 xs)).isOk = true ∧
    List.Forall₂ quantClose (pcm16ToFloatRun (floatToPCM16 xs)) xs := by
  have hlen : (floatToPCM16 xs).length % 2 = 0 := by
    rw [floatToPCM16_length]
    omega
  have hdec : pcm16ToFloat (floatToPCM16 xs)
      = Except.ok ((bytesToInts (floatToPCM16 xs)).map pcm16SampleToFloat) := by
    unfold pcm16ToFloat
    rw [if_pos hlen]
  constructor
  · rw [hdec]
    rfl
  · unfold pcm16ToFloatRun
    rw [hdec, floatToPCM16_decode, List.map_map]
    exact forallTwoMapSelf _ xs (fun x hx => sample_roundtrip (h x hx).1 (h x hx).2)

/-- Witness for C5 at the concrete frame [1, -1/2, 0]. -/
theorem pcm_roundtrip_quantization_witness :
    (pcm16ToFloat (floatToPCM16 [1, -1/2, 0])).isOk = true ∧
    List.Forall₂ quantClose (pcm16ToFloatRun (floatToPCM16 [1, -1/2, 0])) [1, -1/2, 0] :=
  pcm_roundtrip_quantization [1, -1/2, 0] (by intro x hx; fin_cases hx <;> norm_num)

/-- Claim C9 (confirmed): the per-sample PCM decode maps every 16-bit
signed value into [-1, 1], and consequently every sample produced by the
decode path and handed to the playback buffer lies in the legal range. -/
theorem pcm_decode_in_range :
    (∀ v : ℤ, -32768 ≤ v → v ≤ 32767 →
      -1 ≤ pcm16SampleToFloat v ∧ pcm16SampleToFloat v ≤ 1) ∧
    (∀ bytes : List ℕ, ∀ q ∈ pcm16ToFloatRun bytes, -1 ≤ q ∧ q ≤ 1) := by
  have main : ∀ v : ℤ, -32768 ≤ v → v ≤ 32767 →
      -1 ≤ pcm16SampleToFloat v ∧ pcm16SampleToFloat v ≤ 1 := by
    intro v h1 h2
    have h1' : (-32768 : ℚ) ≤ (v : ℚ) := by exact_mod_cast h1
    have h2' : ((v : ℚ)) ≤ 32767 := by exact_mod_cast h2
    unfold pcm16SampleToFloat
    by_cases hv : v < 0
    · rw [if_pos hv]
      constructor
      · rw [le_div_iff₀ (by norm_num : (0 : ℚ) < 32768)]
        linarith
      · rw [div_le_iff₀ (by norm_num : (0 : ℚ) < 32768)]
        linarith
    · rw [if_neg hv]
      have h0' : (0 : ℚ) ≤ (v : ℚ) := by exact_mod_cast not_lt.mp hv
      constructor
      · rw [le_div_iff₀ (by norm_num : (0 : ℚ) < 32767)]
        linarith
      · rw [div_le_iff₀ (by norm_num : (0 : ℚ) < 32767)]
        linarith
  refine ⟨main, ?_⟩
  intro bytes q hq
  by_cases hb : bytes.length % 2 = 0
  · have hrun : pcm16ToFloatRun bytes = (bytesToInts bytes).map pcm16SampleToFloat := by
      unfold pcm16ToFloatRun pcm16ToFloat
      rw [if_pos hb]
    rw [hrun] at hq
    simp only [List.mem_map] at hq
    obtain ⟨v, hv, rfl⟩ := hq
    have hbd := bytesToInts_mem_bounds bytes v hv
    exact main v hbd.1 hbd.2
  · have hrun : pcm16ToFloatRun bytes = [] := by
      unfold pcm16ToFloatRun pcm16ToFloat
      rw [if_neg hb]
    rw [hrun] at hq
    simp at hq

/-- Witness for C9 at the extreme sample values and at a concrete byte
pair decoding to the most negative sample. -/
theorem pcm_decode_in_range_witness :
    (-1 ≤ pcm16SampleToFloat (-32768) ∧ pcm16SampleToFloat (-32768) ≤ 1) ∧
    (-1 ≤ pcm16SampleToFloat 32767 ∧ pcm16SampleToFloat 32767 ≤ 1) ∧
    (-1 ≤ pcm16SampleToFloat 0 ∧ pcm16SampleToFloat 0 ≤ 1) :=
  ⟨pcm_decode_in_range.1 (-32768) (by norm_num) (by norm_num),
   pcm_decode_in_range.1 32767 (by norm_num) (by norm_num),
   pcm_decode_in_range.1 0 (by norm_num) (by norm_num)⟩

/-- Claim C8 (amended): on every frame the meter computes the square
root of the mean of the squared samples, so every all-zero non-empty
frame has RMS 0 and the frame [1, -1, 1, -1] has RMS 1; but no value at
all is the RMS of the empty frame, because the code divides by the
frame length and 0/0 is NaN - the empty frame does not yield 0. -/
theorem rms_characterization :
    (∀ n : ℕ, 0 < n → isRmsOf (List.replicate n (0 : ℚ)) 0) ∧
    isRmsOf [1, -1, 1, -1] 1 ∧
    (∀ (xs : List ℚ) (r : ℚ), isRmsOf xs r → xs ≠ []) ∧
    (∀ xs : List ℚ, xs ≠ [] → meanSquare xs = some (sumSquares xs / xs.length)) := by
  refine ⟨?_, ?_, ?_, ?_⟩
  · intro n hn
    refine ⟨le_refl 0, ?_⟩
    have hs : sumSquares (List.replicate n (0 : ℚ)) = 0 := by
      simp [sumSquares]
    unfold meanSquare jsDiv
    rw [hs]
    rw [if_neg (show ¬ ((List.replicate n (0:ℚ)).length : ℚ) = 0 by
      simp only [List.length_replicate, Nat.cast_eq_zero]
      omega)]
    norm_num
  · refine ⟨by norm_num, ?_⟩
    unfold meanSquare jsDiv sumSquares
    norm_num
  · intro xs r h hnil
    rw [hnil] at h
    obtain ⟨-, h2⟩ := h
    simp [meanSquare, jsDiv] at h2
  · intro xs hxs
    unfold meanSquare jsDiv
    rw [if_neg]
    exact Nat.cast_ne_zero.mpr (fun h => hxs (List.length_eq_zero.mp h))

/-- Witness for C8 at a concrete all-zero frame and the alternating
frame from the spec. -/
theorem rms_characterization_witness :
    isRmsOf (List.replicate 4 (0 : ℚ)) 0 ∧ isRmsOf [1, -1, 1, -1] 1 :=
  ⟨rms_characterization.1 4 (by norm_num), rms_characterization.2.1⟩

/-- Counterexample for C8 as stated: the empty frame does not have RMS
0 - the mean square is NaN (undefined), not 0. -/
theorem rms_empty_frame_nan :
    meanSquare ([] : List ℚ) = none ∧ ¬ isRmsOf ([] : List ℚ) 0 := by
  refine ⟨rfl, ?_⟩
  rintro ⟨-, h⟩
  simp [meanSquare, jsDiv] at h

/-! ## Claim theorems: playback scheduler -/

/-- Claim C2 (amended): the playback cursor never decreases under
`enqueue` (the scheduling portion of `playAudio`); `stopAudioPlayback`,
however, resets it to the current device clock time, which can be
smaller than the cursor when already-scheduled audio was discarded. -/
theorem cursor_monotone_enqueue_reset_cancel :
    (∀ (s : Sched) (now : ℚ) (n : ℕ),
      s.nextStartTime ≤ ((enqueue now n s).1).nextStartTime) ∧
    (∀ (s : Sched) (now : ℚ), (stopAudioPlayback now true s).nextStartTime = now) := by
  constructor
  · intro s now n
    show s.nextStartTime ≤
      (if s.nextStartTime < now then now + 1 / 20 else s.nextStartTime) + (n : ℚ) / 24000
    have hd : (0 : ℚ) ≤ (n : ℚ) / 24000 := by positivity
    split_ifs with h
    · have h20 : (0 : ℚ) < 1 / 20 := by norm_num
      linarith
    · linarith
  · intro s now
    rfl

/-- Counterexample for C2 as stated: `stopAudioPlayback` (the cancel
operation) sets the cursor from 10 to the device clock 5, a strictly
smaller value, so the cursor is not monotone across all scheduler
operations. -/
theorem cancel_resets_cursor_backwards :
    (stopAudioPlayback 5 true { nextStartTime := 10, active := [] }).nextStartTime
      < ({ nextStartTime := 10, active := [] } : Sched).nextStartTime := by
  show (5 : ℚ) < 10
  norm_num

/-- Claim C6 (amended): `stopAudioPlayback` empties the active set and
resets the cursor to the current device clock time, and stopping any
unit - including one that already finished naturally - surfaces no
error (the catch swallows the race); a subsequent enqueue at any
strictly later device time starts at that time plus the 50 ms lead.
(An enqueue at exactly the reset instant starts at the reset cursor
itself, without the lead - see the counterexample.) -/
theorem cancel_all_clears_and_resets (now : ℚ) (s : Sched) :
    (stopAudioPlayback now true s).active = [] ∧
    (stopAudioPlayback now true s).nextStartTime = now ∧
    (∀ u : Src, tryStop u = Except.ok ()) ∧
    (∀ (t : ℚ) (n : ℕ), now < t →
      (enqueue t n (stopAudioPlayback now true s)).2 = t + 1 / 20) := by
  refine ⟨rfl, rfl, ?_, ?_⟩
  · intro u
    unfold tryStop stopSource
    split <;> rfl
  · intro t n ht
    show (if (stopAudioPlayback now true s).nextStartTime < t
          then t + 1 / 20 else (stopAudioPlayback now true s).nextStartTime) = t + 1 / 20
    exact if_pos (show (stopAudioPlayback now true s).nextStartTime < t from ht)

/-- Witness for C6 at a concrete state holding one already-finished
unit: cancel at time 2, then enqueue at time 3. -/
theorem cancel_all_clears_and_resets_witness :
    (stopAudioPlayback 2 true
      { nextStartTime := 10, active := [{ start := 0, samples := 100, finished := true }] }).active = [] ∧
    (stopAudioPlayback 2 true
      { nextStartTime := 10, active := [{ start := 0, samples := 100, finished := true }] }).nextStartTime = 2 ∧
    tryStop { start := 0, samples := 100, finished := true } = Except.ok () ∧
    (enqueue 3 5 (stopAudioPlayback 2 true
      { nextStartTime := 10, active := [{ start := 0, samples := 100, finished := true }] })).2 = 3 + 1 / 20 := by
  have h := cancel_all_clears_and_resets 2
    { nextStartTime := 10, active := [{ start := 0, samples := 100, finished := true }] }
  exact ⟨h.1, h.2.1, h.2.2.1 _, h.2.2.2 3 5 (by norm_num)⟩

/-- Counterexample for C6 as stated: after a cancel at device time 5,
an enqueue issued while the clock still reads 5 starts exactly at 5 -
the cursor value - and not at `now + leadTime`, because the lead is
applied only when the cursor is strictly behind the clock. -/
theorem cancel_then_enqueue_same_instant_no_lead :
    (enqueue 5 100 (stopAudioPlayback 5 true { nextStartTime := 10, active := [] })).2 = 5 ∧
    ¬ ((5 : ℚ) = 5 + 1 / 20) := by
  constructor
  · show (if (5 : ℚ) < 5 then (5 : ℚ) + 1 / 20 else 5) = 5
    rw [if_neg (by norm_num : ¬ ((5 : ℚ) < 5))]
  · norm_num

/-! ## Helper lemmas: scheduler steps -/

theorem enqueue_start_of_le {now : ℚ} {s : Sched} (n : ℕ) (h : now ≤ s.nextStartTime) :
    (enqueue now n s).2 = s.nextStartTime := by
  show (if s.nextStartTime < now then now + 1 / 20 else s.nextStartTime) = s.nextStartTime
  rw [if_neg (not_lt.mpr h)]

theorem enqueue_cursor (now : ℚ) (n : ℕ) (s : Sched) :
    ((enqueue now n s).1).nextStartTime = (enqueue now n s).2 + (n : ℚ) / 24000 := rfl

theorem unitsDisjoint_chain3 (u v w : Src)
    (h1 : u.start + srcDur u ≤ v.start) (h2 : v.start + srcDur v ≤ w.start) :
    unitsDisjoint [u, v, w] := by
  have hv : (0 : ℚ) ≤ srcDur v := by
    unfold srcDur
    positivity
  have h3 : u.start + srcDur u ≤ w.start := by linarith
  unfold unitsDisjoint
  refine List.Pairwise.cons ?_ (List.Pairwise.cons ?_ (List.pairwise_singleton _ _))
  · intro a ha
    simp only [List.mem_cons, List.mem_singleton, List.not_mem_nil, or_false] at ha
    rcases ha with rfl | rfl
    · exact Or.inl h1
    · exact Or.inl h3
  · intro a ha
    simp only [List.mem_cons, List.not_mem_nil, or_false] at ha
    subst ha
    exact Or.inl h2

/-! ## Claim theorem: back-to-back enqueues -/

/-- Claim C1 (amended): starting from a fresh scheduler with cursor c0,
three back-to-back enqueues (each later enqueue issued while the device
clock has not passed the cursor) of frames of n1, n2, n3 samples are
scheduled at t0, t0 + d1, t0 + d1 + d2 with d_i = n_i/24000 - where
t0 is `now + 0.05` when the cursor had fallen strictly behind the clock
and is the bare cursor value otherwise (the 50 ms lead is applied only
in the fallen-behind case, not always) - and no two of the scheduled
units' [start, start + duration) intervals overlap. -/
theorem enqueue_three_frames_back_to_back
    (c0 now1 now2 now3 : ℚ) (n1 n2 n3 : ℕ)
    (h2 : now2 ≤ ((enqueue now1 n1 { nextStartTime := c0, active := [] }).1).nextStartTime)
    (h3 : now3 ≤ ((enqueue now2 n2
            (enqueue now1 n1 { nextStartTime := c0, active := [] }).1).1).nextStartTime) :
    (enqueue now1 n1 { nextStartTime := c0, active := [] }).2
        = (if c0 < now1 then now1 + 1 / 20 else c0) ∧
    (enqueue now2 n2 (enqueue now1 n1 { nextStartTime := c0, active := [] }).1).2
        = (enqueue now1 n1 { nextStartTime := c0, active := [] }).2 + (n1 : ℚ) / 24000 ∧
    (enqueue now3 n3 (enqueue now2 n2
          (enqueue now1 n1 { nextStartTime := c0, active := [] }).1).1).2
        = (enqueue now1 n1 { nextStartTime := c0, active := [] }).2
            + (n1 : ℚ) / 24000 + (n2 : ℚ) / 24000 ∧
    unitsDisjoint ((enqueue now3 n3 (enqueue now2 n2
          (enqueue now1 n1 { nextStartTime := c0, active := [] }).1).1).1).active := by
  have hc2 : (enqueue now2 n2 (enqueue now1 n1 { nextStartTime := c0, active := [] }).1).2
      = (enqueue now1 n1 { nextStartTime := c0, active := [] }).2 + (n1 : ℚ) / 24000 :=
    (enqueue_start_of_le n2 h2).trans (enqueue_cursor _ _ _)
  have hc3 : (enqueue now3 n3 (enqueue now2 n2
        (enqueue now1 n1 { nextStartTime := c0, active := [] }).1).1).2
      = (enqueue now1 n1 { nextStartTime := c0, active := [] }).2
          + (n1 : ℚ) / 24000 + (n2 : ℚ) / 24000 := by
    have := (enqueue_start_of_le n3 h3).trans (enqueue_cursor _ _ _)
    rw [this, hc2]
  refine ⟨rfl, hc2, hc3, ?_⟩
  have ha : ((enqueue now3 n3 (enqueue now2 n2
        (enqueue now1 n1 { nextStartTime := c0, active := [] }).1).1).1).active
      = [{ start := (enqueue now1 n1 { nextStartTime := c0, active := [] }).2,
           samples := n1, finished := false },
         { start := (enqueue now2 n2
              (enqueue now1 n1 { nextStartTime := c0, active := [] }).1).2,
           samples := n2, finished := false },
         { start := (enqueue now3 n3 (enqueue now2 n2
              (enqueue now1 n1 { nextStartTime := c0, active := [] }).1).1).2,
           samples := n3, finished := false }] := rfl
  rw [ha, hc2, hc3]
  exact unitsDisjoint_chain3 _ _ _ (le_of_eq rfl) (le_of_eq rfl)

/-- Witness for C1 at c0 = 0, all three enqueues at device time 1,
with frames of 12000, 7200, 4800 samples (0.5 s, 0.3 s, 0.2 s). -/
theorem enqueue_three_frames_back_to_back_witness :
    (enqueue 1 12000 { nextStartTime := 0, active := [] }).2
        = (if (0 : ℚ) < 1 then 1 + 1 / 20 else 0) ∧
    (enqueue 1 7200 (enqueue 1 12000 { nextStartTime := 0, active := [] }).1).2
        = (enqueue 1 12000 { nextStartTime := 0, active := [] }).2
            + ((12000 : ℕ) : ℚ) / 24000 ∧
    (enqueue 1 4800 (enqueue 1 7200
          (enqueue 1 12000 { nextStartTime := 0, active := [] }).1).1).2
        = (enqueue 1 12000 { nextStartTime := 0, active := [] }).2
            + ((12000 : ℕ) : ℚ) / 24000 + ((7200 : ℕ) : ℚ) / 24000 ∧
    unitsDisjoint ((enqueue 1 4800 (enqueue 1 7200
          (enqueue 1 12000 { nextStartTime := 0, active := [] }).1).1).1).active := by
  have h2p : (1 : ℚ) ≤ ((enqueue 1 12000 { nextStartTime := 0, active := [] }).1).nextStartTime := by
    rw [enqueue_cursor]
    have ht : (enqueue 1 12000 ({ nextStartTime := 0, active := [] } : Sched)).2 = 1 + 1 / 20 := by
      show (if (0 : ℚ) < 1 then (1 : ℚ) + 1 / 20 else 0) = 1 + 1 / 20
      rw [if_pos (by norm_num : (0 : ℚ) < 1)]
    rw [ht]
    push_cast
    norm_num
  have h3p : (1 : ℚ) ≤ ((enqueue 1 7200
      (enqueue 1 12000 { nextStartTime := 0, active := [] }).1).1).nextStartTime := by
    rw [enqueue_cursor, enqueue_start_of_le 7200 h2p]
    have h72 : (0 : ℚ) ≤ ((7200 : ℕ) : ℚ) / 24000 := by positivity
    linarith
  exact enqueue_three_frames_back_to_back 0 1 1 1 12000 7200 4800 h2p h3p

/-- Counterexample for C1 as stated: with cursor 10 ahead of the device
clock 5, the enqueue starts at the bare cursor value 10, not at
`max(now, cursor) + 0.05 = 10.05` - the lead time is not always added. -/
theorem enqueue_lead_time_not_always_added :
    (enqueue 5 12000 { nextStartTime := 10, active := [] }).2 = 10 ∧
    ¬ ((10 : ℚ) = max 5 10 + 1 / 20) := by
  constructor
  · show (if (10 : ℚ) < 5 then (5 : ℚ) + 1 / 20 else 10) = 10
    rw [if_neg (by norm_num : ¬ ((10 : ℚ) < 5))]
  · rw [max_eq_right (by norm_num : (5 : ℚ) ≤ 10)]
    norm_num

/-! ## Claim theorems: message handler -/

/-- Claim C3 (code bug): a frame whose payload is not valid base64
("!!!!") or decodes to a byte count that is not a multiple of two
("QQ==", one byte) makes the decode chain throw, and - the handler
having no try/catch - the exception propagates out of `onmessage`
instead of the frame being dropped: the handler aborts with the error. -/
theorem malformed_frame_error_escapes :
    onmessage 0
        { audioData := some ['!', '!', '!', '!'], interrupted := false, turnComplete := false }
        { sched := { nextStartTime := 0, active := [] }, isSpeaking := true }
      = Except.error DecodeErr.invalidB64 ∧
    onmessage 0
        { audioData := some ['Q', 'Q', '=', '='], interrupted := false, turnComplete := false }
        { sched := { nextStartTime := 0, active := [] }, isSpeaking := true }
      = Except.error DecodeErr.oddLength := ⟨rfl, rfl⟩

/-- Claim C7 (amended): whenever a message carrying the interrupted
flag is received while `isSpeaking` is true, and the audio payload of
that message (if any) decodes successfully, the handler empties the
active playback set via `stopAudioPlayback` and clears `isSpeaking` -
for every prior state, hence under any interleaving of audio frames and
control signals across messages.  (If the same message carries a
malformed payload, the decode exception aborts the handler first - see
the counterexample.) -/
theorem interrupted_cancels_when_decodable
    (now : ℚ) (st : VoiceState) (m : ServerMessage)
    (hint : m.interrupted = true)
    (hsp : st.isSpeaking = true)
    (hdec : ∀ b, m.audioData = some b → (playAudioDecode b).isOk = true) :
    (runMessage now m st).isSpeaking = false ∧
    (runMessage now m st).sched.active = [] := by
  cases haud : m.audioData with
  | none =>
      cases htc : m.turnComplete <;>
        simp [runMessage, onmessage, haud, hint, htc, stopAudioPlayback]
  | some b =>
      have hok := hdec b haud
      cases hpd : playAudioDecode b with
      | error e =>
          rw [hpd] at hok
          simp [Except.isOk, Except.toBool] at hok
      | ok samples =>
          cases htc : m.turnComplete <;>
            simp [runMessage, onmessage, playAudio, haud, hint, htc, hpd, stopAudioPlayback]

/-- Witness for C7: a message carrying a well-formed (all-zero) audio
payload together with the interrupted flag, received while speaking
with one unit queued. -/
theorem interrupted_cancels_witness :
    (runMessage 0
        { audioData := some ['A', 'A', 'A', 'A', 'A', 'A', 'A', 'A'],
          interrupted := true, turnComplete := false }
        { sched := { nextStartTime := 3,
                     active := [{ start := 0, samples := 12000, finished := false }] },
          isSpeaking := true }).isSpeaking = false ∧
    (runMessage 0
        { audioData := some ['A', 'A', 'A', 'A', 'A', 'A', 'A', 'A'],
          interrupted := true, turnComplete := false }
        { sched := { nextStartTime := 3,
                     active := [{ start := 0, samples := 12000, finished := false }] },
          isSpeaking := true }).sched.active = [] :=
  interrupted_cancels_when_decodable 0 _ _ rfl rfl
    (by intro b hb; cases hb; rfl)

/-- Counterexample for C7 as stated: a message carrying the interrupted
flag together with a malformed audio payload throws during decode
before reaching the interrupted branch, so playback is not cancelled
and `isSpeaking` stays true. -/
theorem interrupted_with_malformed_audio_not_cancelled :
    (runMessage 0
        { audioData := some ['!', '!', '!', '!'], interrupted := true, turnComplete := false }
        { sched := { nextStartTime := 0, active := [] }, isSpeaking := true }).isSpeaking
      = true := rfl

/-! ## Claim theorems: teardown -/

/-- Claim C4 (confirmed): `disconnect` completes without raising an
error from every state - including the initial state in which no
connection was ever established - and a second invocation from the
state the first one left behind also raises no error. -/
theorem disconnect_idempotent_no_error (st : CompState) :
    disconnectE st = Except.ok (disconnectRun st) ∧
    disconnectE (disconnectRun st).1 = Except.ok (disconnectRun (disconnectRun st).1) := by
  rcases st with ⟨s, p, so, str, ctx⟩
  rcases ctx with _ | c
  · cases s <;> cases p <;> cases so <;> cases str <;> exact ⟨rfl, rfl⟩
  · cases c <;> cases s <;> cases p <;> cases so <;> cases str <;> exact ⟨rfl, rfl⟩

/-- Claim C10 (confirmed): `disconnect` never invokes close or send on
the remote session handle - it only nulls the local reference - while
the microphone tracks are stopped, the processor and source nodes are
disconnected, and the audio context is closed whenever each is present. -/
theorem disconnect_frame_effects (st : CompState) :
    JsCall.sessClose ∉ (disconnectRun st).2 ∧
    JsCall.sessSend ∉ (disconnectRun st).2 ∧
    (disconnectRun st).1.session = false ∧
    (st.stream = true → JsCall.trackStop ∈ (disconnectRun st).2) ∧
    (st.processor = true → st.source = true →
      JsCall.procDisc ∈ (disconnectRun st).2 ∧ JsCall.srcDisc ∈ (disconnectRun st).2) ∧
    (∀ c, st.ctx = some c →
      JsCall.ctxClose c ∈ (disconnectRun st).2 ∧ (disconnectRun st).1.ctx = some true) := by
  rcases st with ⟨s, p, so, str, ctx⟩
  rcases ctx with _ | c
  · cases s <;> cases p <;> cases so <;> cases str <;> decide
  · cases c <;> cases s <;> cases p <;> cases so <;> cases str <;> decide

/-- Witness for C10 at the fully connected state. -/
theorem disconnect_frame_effects_witness :
    JsCall.trackStop ∈ (disconnectRun
      { session := true, processor := true, source := true, stream := true, ctx := some false }).2 ∧
    JsCall.procDisc ∈ (disconnectRun
      { session := true, processor := true, source := true, stream := true, ctx := some false }).2 ∧
    JsCall.srcDisc ∈ (disconnectRun
      { session := true, processor := true, source := true, stream := true, ctx := some false }).2 ∧
    JsCall.ctxClose false ∈ (disconnectRun
      { session := true, processor := true, source := true, stream := true, ctx := some false }).2 ∧
    JsCall.sessClose ∉ (disconnectRun
      { session := true, processor := true, source := true, stream := true, ctx := some false }).2 := by
  have h := disconnect_frame_effects
    { session := true, processor := true, source := true, stream := true, ctx := some false }
  exact ⟨h.2.2.2.1 rfl, (h.2.2.2.2.1 rfl rfl).1, (h.2.2.2.2.1 rfl rfl).2,
    (h.2.2.2.2.2 false rfl).1, h.1⟩
